import Mathlib

/-!
# Verification of the hft-infra backend (`src/backend/server.js`)

Shallow embedding of the Express + Mongoose backend: the two Mongoose schemas
(`Waitlist`, `Thoughts`), the nine HTTP route handlers, the startup
connection-retry loop, and the CSV export construction are translated into
executable Lean definitions, and the behavioural claims of the specification
are proved (or refuted) against them.

Modelling conventions:
* JS strings are Lean `String`s; character-level operations
  (`String.prototype.toLowerCase`, `String.prototype.trim`) are modelled on
  the ASCII range, which covers every character the server's own validation
  admits (`Char.toLower` from core is exactly the ASCII lowering).
* MongoDB is modelled as an in-memory list per collection plus a `connected`
  flag; every storage call on a disconnected store throws.  Mongoose schema
  setters (`lowercase`, `trim`) run both on saved values and — as documented
  for Mongoose 6+ — on query-filter values, and save-time validation runs
  the `required`, `match`, `minlength` validators and the `unique` index.
* Fallible storage operations return `Except Unit`; each route handler
  catches at its boundary (the `try/catch` of the source) and produces a
  `Response`.
-/

namespace HftInfra

/-! ## Character and string primitives -/

/-- The ASCII whitespace characters recognised by both the JS regex class
`\s` and `String.prototype.trim` (restricted to the ASCII range): space,
tab, line feed, carriage return. -/
def isWsChar (c : Char) : Bool :=
  decide (c.toNat = 32 ∨ c.toNat = 9 ∨ c.toNat = 10 ∨ c.toNat = 13)

/-- JS `String.prototype.toLowerCase` on the ASCII range: `Char.toLower` maps
`A`–`Z` to `a`–`z` and fixes everything else. -/
def lowerStr (s : String) : String := ⟨s.data.map Char.toLower⟩

/-- Remove leading and trailing whitespace from a character list. -/
def trimList (l : List Char) : List Char :=
  ((l.dropWhile isWsChar).reverse.dropWhile isWsChar).reverse

/-- JS `String.prototype.trim` (ASCII whitespace). -/
def trimStr (s : String) : String := ⟨trimList s.data⟩

/-- The normalization `email.toLowerCase().trim()` that the handlers and the
Mongoose schema setters (`lowercase: true`, `trim: true`) apply to emails. -/
def normalizeEmail (s : String) : String := trimStr (lowerStr s)

/-- Characters admitted by the class `[^\s@]` of the server's email regex. -/
def emailChar (c : Char) : Bool := !isWsChar c && !(c == '@')

/-- The server's email pattern `/^[^\s@]+@[^\s@]+\.[^\s@]+$/`: a nonempty
run of non-whitespace non-`@` characters, an `@`, then a domain that is
nonempty, free of whitespace and `@`, and contains a `.` that is neither
its first nor its last character (so both `[^\s@]+` around the `.` are
nonempty). -/
def emailOk (l : List Char) : Bool :=
  let L := l.takeWhile (fun c => !(c == '@'))
  match l.dropWhile (fun c => !(c == '@')) with
  | [] => false
  | _ :: D =>
    !L.isEmpty && L.all emailChar &&
    !D.isEmpty && D.all emailChar &&
    ((D.drop 1).dropLast.contains '.')

/-- The email pattern applied to a `String`. -/
def emailOkStr (s : String) : Bool := emailOk s.data

/-! ## Lemmas about the string primitives -/

theorem toNat_ofNat_small (n : Nat) (h : n < 55296) : (Char.ofNat n).toNat = n := by
  rw [Char.ofNat, dif_pos (Or.inl h : n.isValidChar)]
  rfl

theorem toLower_toNat (c : Char) :
    (c.toLower).toNat = if 65 ≤ c.toNat ∧ c.toNat ≤ 90 then c.toNat + 32 else c.toNat := by
  rw [Char.toLower]
  split
  · next h => exact toNat_ofNat_small _ (by omega)
  · rfl

theorem toLower_eq_self (c : Char) (h : ¬ (65 ≤ c.toNat ∧ c.toNat ≤ 90)) : c.toLower = c := by
  rw [Char.toLower, if_neg h]

theorem toLower_idem (c : Char) : c.toLower.toLower = c.toLower := by
  by_cases h : 65 ≤ c.toNat ∧ c.toNat ≤ 90
  · have h1 : (c.toLower).toNat = c.toNat + 32 := by rw [toLower_toNat, if_pos h]
    exact toLower_eq_self _ (by omega)
  · rw [toLower_eq_self c h]
    exact toLower_eq_self c h

theorem isWsChar_toLower (c : Char) : isWsChar c.toLower = isWsChar c := by
  by_cases h : 65 ≤ c.toNat ∧ c.toNat ≤ 90
  · have h1 : (c.toLower).toNat = c.toNat + 32 := by rw [toLower_toNat, if_pos h]
    simp only [isWsChar, h1]
    rw [decide_eq_decide]
    omega
  · rw [toLower_eq_self c h]

/-- Dropping a prefix twice with the same predicate drops it once. -/
theorem dropWhile_idem (p : Char → Bool) (l : List Char) :
    (l.dropWhile p).dropWhile p = l.dropWhile p := by
  induction l with
  | nil => rfl
  | cons c cs ih =>
    by_cases h : p c
    · simp [List.dropWhile_cons, h, ih]
    · simp [List.dropWhile_cons, h]

/-- A prefix of a list that `dropWhile p` leaves unchanged is itself left
unchanged by `dropWhile p`. -/
theorem dropWhile_eq_self_of_prefix (p : Char → Bool) {l l' : List Char}
    (hpre : l' <+: l) (h : l.dropWhile p = l) : l'.dropWhile p = l' := by
  cases l' with
  | nil => rfl
  | cons c cs =>
    obtain ⟨t, ht⟩ := hpre
    subst ht
    rw [List.cons_append, List.dropWhile_cons] at h
    rw [List.dropWhile_cons]
    by_cases hp : p c
    · exfalso
      rw [if_pos hp] at h
      have hcong := congrArg List.length h
      have hle := (List.dropWhile_suffix (l := cs ++ t) p).length_le
      simp [List.length_append] at hcong hle
      omega
    · rw [if_neg hp]

theorem trimList_map_toLower (l : List Char) :
    trimList (l.map Char.toLower) = (trimList l).map Char.toLower := by
  have hpred : (isWsChar ∘ Char.toLower) = isWsChar := by
    funext c
    exact isWsChar_toLower c
  simp only [trimList, List.dropWhile_map, hpred, ← List.map_reverse]

/-- Trimming is idempotent. -/
theorem trimList_idem (l : List Char) : trimList (trimList l) = trimList l := by
  have hleft : (trimList l).dropWhile isWsChar = trimList l := by
    apply dropWhile_eq_self_of_prefix isWsChar (l := l.dropWhile isWsChar)
    · rw [trimList, ← List.reverse_suffix]
      simp only [List.reverse_reverse]
      exact List.dropWhile_suffix isWsChar
    · exact dropWhile_idem isWsChar l
  rw [trimList, hleft]
  rw [trimList, List.reverse_reverse, dropWhile_idem]

theorem map_toLower_idem (l : List Char) :
    (l.map Char.toLower).map Char.toLower = l.map Char.toLower := by
  rw [List.map_map]
  apply List.map_congr_left
  intro c _
  exact toLower_idem c

/-- Email normalization (`toLowerCase` then `trim`) is idempotent. -/
theorem normalizeEmail_idem (s : String) :
    normalizeEmail (normalizeEmail s) = normalizeEmail s := by
  show String.mk (trimList ((trimList (s.data.map Char.toLower)).map Char.toLower))
      = String.mk (trimList (s.data.map Char.toLower))
  rw [← trimList_map_toLower, map_toLower_idem, trimList_idem]

/-- Normalizing after an extra `toLowerCase` changes nothing. -/
theorem normalizeEmail_lowerStr (s : String) :
    normalizeEmail (lowerStr s) = normalizeEmail s := by
  show String.mk (trimList ((s.data.map Char.toLower).map Char.toLower))
      = String.mk (trimList (s.data.map Char.toLower))
  rw [map_toLower_idem]

/-- Normalization factors through `trim`: `lower` and `trim` commute. -/
theorem normalizeEmail_trimStr (s : String) :
    lowerStr (trimStr s) = normalizeEmail s := by
  show String.mk ((trimList s.data).map Char.toLower)
      = String.mk (trimList (s.data.map Char.toLower))
  rw [trimList_map_toLower]

theorem trimList_length_le (l : List Char) : (trimList l).length ≤ l.length := by
  have h1 := (List.dropWhile_suffix (l := l) isWsChar).length_le
  have h2 := (List.dropWhile_suffix (l := (l.dropWhile isWsChar).reverse) isWsChar).length_le
  simp only [trimList, List.length_reverse]
  simp only [List.length_reverse] at h2
  omega

theorem emailOk_nil : emailOk [] = false := rfl

theorem emailOk_ne_nil {l : List Char} (h : emailOk l = true) : l ≠ [] := by
  intro hnil
  rw [hnil, emailOk_nil] at h
  exact Bool.false_ne_true h

/-! ## Data model: documents and the storage layer -/

/-- A persisted document of the `Waitlist` collection (`waitlistSchema`). -/
structure WaitlistDoc where
  email : String
  timestamp : Nat
  source : String
  ipAddress : String
  userAgent : String
deriving Repr, DecidableEq

/-- A persisted document of the `Thoughts` collection (`thoughtsSchema`);
the email is optional (`sparse`). -/
structure ThoughtDoc where
  email : Option String
  message : String
  timestamp : Nat
  source : String
  ipAddress : String
  userAgent : String
deriving Repr, DecidableEq

/-- The storage layer: the two collections plus the connection state.  A
storage call on a disconnected store throws (is caught by the handler's
`try`/`catch`). -/
structure DB where
  connected : Bool
  waitlist : List WaitlistDoc
  thoughts : List ThoughtDoc
deriving Repr, DecidableEq

/-- The projection `select('email timestamp source')` of the waitlist
admin listing. -/
structure WaitlistProj where
  email : String
  timestamp : Nat
  source : String
deriving Repr, DecidableEq

/-- The projection `select('email message timestamp source')` of the
thoughts admin listing. -/
structure ThoughtProj where
  email : Option String
  message : String
  timestamp : Nat
  source : String
deriving Repr, DecidableEq

def projWaitlist (d : WaitlistDoc) : WaitlistProj := ⟨d.email, d.timestamp, d.source⟩

def projThought (d : ThoughtDoc) : ThoughtProj := ⟨d.email, d.message, d.timestamp, d.source⟩

/-- The ordering behind `sort(\x7b timestamp: -1 \x7d)`: newest first. -/
def tsDescW (a b : WaitlistDoc) : Prop := b.timestamp ≤ a.timestamp

/-- The ordering behind `sort(\x7b timestamp: -1 \x7d)`: newest first. -/
def tsDescT (a b : ThoughtDoc) : Prop := b.timestamp ≤ a.timestamp

instance : DecidableRel tsDescW := fun a b => Nat.decLe b.timestamp a.timestamp

instance : DecidableRel tsDescT := fun a b => Nat.decLe b.timestamp a.timestamp

instance : IsTotal WaitlistDoc tsDescW := ⟨fun a b => Nat.le_total b.timestamp a.timestamp⟩

instance : IsTotal ThoughtDoc tsDescT := ⟨fun a b => Nat.le_total b.timestamp a.timestamp⟩

instance : IsTrans WaitlistDoc tsDescW := ⟨fun _ _ _ hab hbc => Nat.le_trans hbc hab⟩

instance : IsTrans ThoughtDoc tsDescT := ⟨fun _ _ _ hab hbc => Nat.le_trans hbc hab⟩

/-- Model of `Waitlist.findOne(\x7b email: filterEmail \x7d)`.  Mongoose (6+)
applies the schema setters (`lowercase`, `trim`) to query-filter values, so
the lookup key is normalized before comparison with the (normalized) stored
emails. -/
def waitlistFindOne (db : DB) (filterEmail : String) : Except Unit (Option WaitlistDoc) :=
  if db.connected then
    .ok (db.waitlist.find? (fun d => d.email == normalizeEmail filterEmail))
  else .error ()

/-- Model of `new Waitlist(...).save()`: the schema setters normalize the
email; save-time validation runs `required`, the `match` pattern, and the
`unique` index, and rejects the document (throwing) on any failure. -/
def waitlistSave (db : DB) (emailArg : String) (now : Nat) (ip ua : String) :
    Except Unit (DB × WaitlistDoc) :=
  if !db.connected then .error ()
  else
    let e := normalizeEmail emailArg
    if e == "" then .error ()
    else if !(emailOkStr e) then .error ()
    else if db.waitlist.any (fun d => d.email == e) then .error ()
    else
      let doc : WaitlistDoc := ⟨e, now, "landing-page", ip, ua⟩
      .ok ({db with waitlist := db.waitlist ++ [doc]}, doc)

/-- Model of `new Thoughts(...).save()`: the schema setters normalize the
optional email and trim the message; save-time validation runs `required`
and `minlength: 10` on the message and the `match` pattern on the email
(skipped when the email is `null`). -/
def thoughtsSave (db : DB) (emailArg : Option String) (messageArg : String) (now : Nat)
    (ip ua : String) : Except Unit (DB × ThoughtDoc) :=
  if !db.connected then .error ()
  else
    let e := emailArg.map normalizeEmail
    let m := trimStr messageArg
    if m == "" then .error ()
    else if m.length < 10 then .error ()
    else if (match e with | some s => !(emailOkStr s) | none => false) then .error ()
    else
      let doc : ThoughtDoc := ⟨e, m, now, "landing-page", ip, ua⟩
      .ok ({db with thoughts := db.thoughts ++ [doc]}, doc)

/-- Model of `Waitlist.countDocuments()`. -/
def waitlistCountDocs (db : DB) : Except Unit Nat :=
  if db.connected then .ok db.waitlist.length else .error ()

/-- Model of `Thoughts.countDocuments()`. -/
def thoughtsCountDocs (db : DB) : Except Unit Nat :=
  if db.connected then .ok db.thoughts.length else .error ()

/-- Model of `Waitlist.find().sort(\x7b timestamp: -1 \x7d)`. -/
def waitlistFindSorted (db : DB) : Except Unit (List WaitlistDoc) :=
  if db.connected then .ok (List.insertionSort tsDescW db.waitlist) else .error ()

/-- Model of `Thoughts.find().sort(\x7b timestamp: -1 \x7d)`. -/
def thoughtsFindSorted (db : DB) : Except Unit (List ThoughtDoc) :=
  if db.connected then .ok (List.insertionSort tsDescT db.thoughts) else .error ()

/-! ## Responses -/

/-- The response bodies the server can produce, one constructor per JSON
shape appearing in the source (plus CSV attachments and the health body). -/
inductive Body where
  | jsonMsg (success : Bool) (message : String)
  | jsonMsgCount (success : Bool) (message : String) (count : Nat)
  | jsonCount (success : Bool) (count : Nat)
  | jsonListW (success : Bool) (count : Nat) (data : List WaitlistProj)
  | jsonListT (success : Bool) (count : Nat) (data : List ThoughtProj)
  | csvBody (text : String)
  | healthBody (status : String) (message : String)
deriving Repr, DecidableEq

/-- An HTTP response: status code and body. -/
structure Response where
  status : Nat
  body : Body
deriving Repr, DecidableEq

/-- The `success` field of the JSON body, when the body has one. -/
def Body.successField : Body → Option Bool
  | .jsonMsg s _ => some s
  | .jsonMsgCount s _ _ => some s
  | .jsonCount s _ => some s
  | .jsonListW s _ _ => some s
  | .jsonListT s _ _ => some s
  | .csvBody _ => none
  | .healthBody _ _ => none

/-- Whether the body carries any stored records (a `data` field or CSV rows). -/
def Body.hasRecordData : Body → Bool
  | .jsonListW _ _ _ => true
  | .jsonListT _ _ _ => true
  | .csvBody _ => true
  | _ => false

/-! ## CSV construction (`GET /api/waitlist/export`, `GET /api/thoughts/export`) -/

/-- Double every quote character: `message.replace(/"/g, '""')`. -/
def escQuotes : List Char → List Char
  | [] => []
  | c :: cs => if c = '"' then '"' :: '"' :: escQuotes cs else c :: escQuotes cs

/-- A quoted CSV field without escaping, as the thoughts export emits for
email, date, source and IP address. -/
def quoteRaw (s : String) : List Char := '"' :: s.data ++ ['"']

/-- A quoted CSV field with internal quotes doubled, as the thoughts export
emits for the message. -/
def quoteEsc (s : String) : List Char := '"' :: escQuotes s.data ++ ['"']

/-- One row of the thoughts CSV export. -/
def thoughtCsvRow (d : ThoughtDoc) (dateStr : String) : List Char :=
  quoteRaw (d.email.getD "") ++ [','] ++ quoteEsc d.message ++ [','] ++ quoteRaw dateStr
    ++ [','] ++ quoteRaw d.source ++ [','] ++ quoteRaw d.ipAddress ++ ['\n']

def thoughtsCsvHeader : List Char := "Email,Message,Date,Source,IP Address\n".data

/-- One row of the waitlist CSV export (unquoted fields). -/
def waitlistCsvRow (d : WaitlistDoc) (dateStr : String) : List Char :=
  d.email.data ++ [','] ++ dateStr.data ++ [','] ++ d.source.data ++ [','] ++ d.ipAddress.data
    ++ ['\n']

def waitlistCsvHeader : List Char := "Email,Signup Date,Source,IP Address\n".data

/-! ## Route handlers -/

/-- The admin gate `if (apiKey !== process.env.ADMIN_API_KEY)`: both the
header value and the environment value are `none` when absent (JS
`undefined`), and the comparison is strict equality, under which
`undefined === undefined`. -/
def adminPass (adminKey apiKey : Option String) : Bool := apiKey == adminKey

/-- Handler of `POST /api/waitlist`. -/
def postWaitlist (db : DB) (emailField : Option String) (ip ua : String) (now : Nat) :
    Response × DB :=
  match emailField with
  | none => (⟨400, .jsonMsg false "Email is required"⟩, db)
  | some email =>
    if email == "" then (⟨400, .jsonMsg false "Email is required"⟩, db)
    else
      match (do
        let existing ← waitlistFindOne db (lowerStr email)
        match existing with
        | some _ =>
          pure ((⟨409, .jsonMsg false "This email is already registered"⟩, db) : Response × DB)
        | none => do
          let r ← waitlistSave db (lowerStr email) now ip ua
          let cnt ← waitlistCountDocs r.1
          pure ((⟨201, .jsonMsgCount true "Successfully added to waitlist" cnt⟩, r.1) :
            Response × DB) : Except Unit (Response × DB)) with
      | .ok r => r
      | .error _ => (⟨500, .jsonMsg false "Server error. Please try again."⟩, db)

/-- The email value the thoughts handler computes,
`email ? email.toLowerCase().trim() : null` (the empty string is falsy). -/
def normEmailField : Option String → Option String
  | none => none
  | some e => if e == "" then none else some (normalizeEmail e)

/-- The inline guard `normalizedEmail && !regex.test(normalizedEmail)` of the
thoughts handler (an empty normalized string is falsy and skips the test). -/
def emailGuardFires (normalizedEmail : Option String) : Bool :=
  match normalizedEmail with
  | some ne => ne != "" && !(emailOkStr ne)
  | none => false

/-- Handler of `POST /api/thoughts`. -/
def postThoughts (db : DB) (emailField messageField : Option String) (ip ua : String)
    (now : Nat) : Response × DB :=
  match messageField with
  | none => (⟨400, .jsonMsg false "Message is required"⟩, db)
  | some message =>
    if message == "" then (⟨400, .jsonMsg false "Message is required"⟩, db)
    else if message.length < 10 then
      (⟨400, .jsonMsg false "Message must be at least 10 characters long"⟩, db)
    else
      let normalizedEmail : Option String := normEmailField emailField
      if emailGuardFires normalizedEmail then
        (⟨400, .jsonMsg false "Invalid email format"⟩, db)
      else
        match thoughtsSave db normalizedEmail (trimStr message) now ip ua with
        | .ok r => (⟨201, .jsonMsg true "Successfully saved your thoughts"⟩, r.1)
        | .error _ => (⟨500, .jsonMsg false "Server error. Please try again."⟩, db)

/-- Handler of `GET /api/waitlist/count`. -/
def getWaitlistCount (db : DB) : Response × DB :=
  match waitlistCountDocs db with
  | .ok c => (⟨200, .jsonCount true c⟩, db)
  | .error _ => (⟨500, .jsonMsg false "Server error"⟩, db)

/-- Handler of `GET /api/thoughts/count`. -/
def getThoughtsCount (db : DB) : Response × DB :=
  match thoughtsCountDocs db with
  | .ok c => (⟨200, .jsonCount true c⟩, db)
  | .error _ => (⟨500, .jsonMsg false "Server error"⟩, db)

/-- Handler of `GET /api/waitlist/all`. -/
def getWaitlistAll (db : DB) (adminKey apiKey : Option String) : Response × DB :=
  if !(adminPass adminKey apiKey) then (⟨401, .jsonMsg false "Unauthorized"⟩, db)
  else
    match waitlistFindSorted db with
    | .ok docs =>
      let data := docs.map projWaitlist
      (⟨200, .jsonListW true data.length data⟩, db)
    | .error _ => (⟨500, .jsonMsg false "Server error"⟩, db)

/-- Handler of `GET /api/thoughts/all`. -/
def getThoughtsAll (db : DB) (adminKey apiKey : Option String) : Response × DB :=
  if !(adminPass adminKey apiKey) then (⟨401, .jsonMsg false "Unauthorized"⟩, db)
  else
    match thoughtsFindSorted db with
    | .ok docs =>
      let data := docs.map projThought
      (⟨200, .jsonListT true data.length data⟩, db)
    | .error _ => (⟨500, .jsonMsg false "Server error"⟩, db)

/-- Handler of `GET /api/waitlist/export`; `dateFmt` models
`new Date(entry.timestamp).toLocaleString()`. -/
def getWaitlistExport (db : DB) (adminKey apiKey : Option String) (dateFmt : Nat → String) :
    Response × DB :=
  if !(adminPass adminKey apiKey) then (⟨401, .jsonMsg false "Unauthorized"⟩, db)
  else
    match waitlistFindSorted db with
    | .ok docs =>
      let csv := waitlistCsvHeader
        ++ (docs.map (fun d => waitlistCsvRow d (dateFmt d.timestamp))).flatten
      (⟨200, .csvBody ⟨csv⟩⟩, db)
    | .error _ => (⟨500, .jsonMsg false "Server error"⟩, db)

/-- Handler of `GET /api/thoughts/export`; `dateFmt` models
`new Date(entry.timestamp).toLocaleString()`. -/
def getThoughtsExport (db : DB) (adminKey apiKey : Option String) (dateFmt : Nat → String) :
    Response × DB :=
  if !(adminPass adminKey apiKey) then (⟨401, .jsonMsg false "Unauthorized"⟩, db)
  else
    match thoughtsFindSorted db with
    | .ok docs =>
      let csv := thoughtsCsvHeader
        ++ (docs.map (fun d => thoughtCsvRow d (dateFmt d.timestamp))).flatten
      (⟨200, .csvBody ⟨csv⟩⟩, db)
    | .error _ => (⟨500, .jsonMsg false "Server error"⟩, db)

/-- Handler of `GET /health`: no storage access. -/
def healthCheck (db : DB) : Response × DB :=
  (⟨200, .healthBody "ok" "Server is running"⟩, db)

/-! ## Startup connection retry (`connectDB`) -/

/-- Outcome of the startup loop.  The `process.exit(1)` in the source is
commented out, so the process either ends up connected or keeps running
without a database; it never exits. -/
inductive StartupOutcome where
  | connected
  | runningWithoutDB
deriving Repr, DecidableEq

/-- Model of `connectDB(retries)`: `ok i` says whether the `i`-th connection
attempt (0-based) succeeds.  Returns the outcome, the total number of
attempts made, and the list of delays (in milliseconds, one per
`setTimeout(() => connectDB(retries - 1), 5000)`) slept between attempts. -/
def connectDB (ok : Nat → Bool) (retries i : Nat) : StartupOutcome × Nat × List Nat :=
  if ok i then (.connected, 1, [])
  else
    match retries with
    | 0 => (.runningWithoutDB, 1, [])
    | r + 1 =>
      let res := connectDB ok r (i + 1)
      (res.1, res.2.1 + 1, 5000 :: res.2.2)

/-- The startup call `connectDB()` with its default `retries = 3`. -/
def startupConnect (ok : Nat → Bool) : StartupOutcome × Nat × List Nat :=
  connectDB ok 3 0


/-! ## Handler-level helper lemmas -/

theorem normalizeEmail_empty : normalizeEmail "" = "" := rfl

theorem emailOkStr_ne_empty {s : String} (h : emailOkStr s = true) : s ≠ "" := by
  intro hs
  rw [hs] at h
  exact Bool.false_ne_true h

theorem nonempty_of_norm_ok {e : String} (h : emailOkStr (normalizeEmail e) = true) :
    e ≠ "" := by
  intro he
  rw [he, normalizeEmail_empty] at h
  exact Bool.false_ne_true h

theorem postWaitlist_success (db : DB) (e : String) (ip ua : String) (now : Nat)
    (hconn : db.connected = true)
    (hvalid : emailOkStr (normalizeEmail e) = true)
    (hnot : ∀ d ∈ db.waitlist, d.email ≠ normalizeEmail e) :
    postWaitlist db (some e) ip ua now =
      (⟨201, .jsonMsgCount true "Successfully added to waitlist" (db.waitlist.length + 1)⟩,
       {db with waitlist := db.waitlist ++ [⟨normalizeEmail e, now, "landing-page", ip, ua⟩]}) := by
  have hne : e ≠ "" := nonempty_of_norm_ok hvalid
  have hfind2 : db.waitlist.find? (fun d => d.email == normalizeEmail e) = none := by
    rw [List.find?_eq_none]
    intro d hd
    simpa using hnot d hd
  have hex : ¬ ∃ x ∈ db.waitlist, x.email = normalizeEmail e := by
    rintro ⟨x, hx, hxe⟩
    exact hnot x hx hxe
  simp only [postWaitlist, waitlistFindOne, waitlistSave, waitlistCountDocs, hconn,
    normalizeEmail_lowerStr, if_true]
  simp [hne, hfind2, hex, hvalid, Bind.bind, Except.bind, Functor.map, Except.map,
    List.length_append, emailOkStr_ne_empty hvalid, Pure.pure, Except.pure]

theorem postWaitlist_conflict (db : DB) (e : String) (ip ua : String) (now : Nat)
    (hconn : db.connected = true)
    (hne : e ≠ "")
    (hfound : ∃ d ∈ db.waitlist, d.email = normalizeEmail e) :
    postWaitlist db (some e) ip ua now =
      (⟨409, .jsonMsg false "This email is already registered"⟩, db) := by
  obtain ⟨d0, hd0, hd0e⟩ := hfound
  have hsome : (db.waitlist.find? (fun d => d.email == normalizeEmail e)).isSome := by
    rw [List.find?_isSome]
    exact ⟨d0, hd0, by simp [hd0e]⟩
  obtain ⟨dfound, hdf⟩ := Option.isSome_iff_exists.mp hsome
  simp only [postWaitlist, waitlistFindOne, hconn, normalizeEmail_lowerStr, if_true]
  simp [hne, hdf, Bind.bind, Except.bind, Pure.pure, Except.pure]
/-! ## Claim C2: normalization idempotence and case/whitespace collisions -/

/-- C2: email normalization (lowercase then trim) is idempotent, and two
waitlist submissions whose email strings differ only in letter case
(`lowerStr e1 = lowerStr e2`) or only in surrounding whitespace
(`trimStr e1 = trimStr e2`) collide under the uniqueness check: the first
succeeds with 201 and the second fails with the 409 conflict response,
persisting nothing. -/
theorem c2_normalization_idempotent_and_collision :
    (∀ s : String, normalizeEmail (normalizeEmail s) = normalizeEmail s) ∧
    (∀ (db : DB) (e1 e2 ip1 ua1 ip2 ua2 : String) (t1 t2 : Nat),
      db.connected = true →
      (lowerStr e1 = lowerStr e2 ∨ trimStr e1 = trimStr e2) →
      emailOkStr (normalizeEmail e1) = true →
      (∀ d ∈ db.waitlist, d.email ≠ normalizeEmail e1) →
      (postWaitlist db (some e1) ip1 ua1 t1).1.status = 201 ∧
      (postWaitlist (postWaitlist db (some e1) ip1 ua1 t1).2 (some e2) ip2 ua2 t2).1
        = ⟨409, .jsonMsg false "This email is already registered"⟩ ∧
      (postWaitlist (postWaitlist db (some e1) ip1 ua1 t1).2 (some e2) ip2 ua2 t2).2
        = (postWaitlist db (some e1) ip1 ua1 t1).2) := by
  refine ⟨normalizeEmail_idem, ?_⟩
  intro db e1 e2 ip1 ua1 ip2 ua2 t1 t2 hconn hdiff hvalid hnot
  have hnorm : normalizeEmail e2 = normalizeEmail e1 := by
    rcases hdiff with h | h
    · show trimStr (lowerStr e2) = trimStr (lowerStr e1)
      rw [h]
    · rw [← normalizeEmail_trimStr, ← h, normalizeEmail_trimStr]
  have hne2 : e2 ≠ "" := by
    intro he2
    rw [he2, normalizeEmail_empty] at hnorm
    rw [← hnorm] at hvalid
    exact Bool.false_ne_true hvalid
  have h1 := postWaitlist_success db e1 ip1 ua1 t1 hconn hvalid hnot
  rw [h1]
  have h2 := postWaitlist_conflict
    {db with waitlist :=
      db.waitlist ++ [⟨normalizeEmail e1, t1, "landing-page", ip1, ua1⟩]}
    e2 ip2 ua2 t2 hconn hne2
    ⟨⟨normalizeEmail e1, t1, "landing-page", ip1, ua1⟩, by simp, by simp [hnorm]⟩
  rw [h2]
  simp

/-- Witness for C2 at concrete inputs. -/
theorem c2_normalization_idempotent_and_collision_witness :
    normalizeEmail (normalizeEmail " User@Example.COM ") = normalizeEmail " User@Example.COM " ∧
    (postWaitlist ⟨true, [], []⟩ (some "User@Example.com") "1.1.1.1" "ua" 5).1.status = 201 ∧
    (postWaitlist (postWaitlist ⟨true, [], []⟩ (some "User@Example.com") "1.1.1.1" "ua" 5).2
      (some "user@EXAMPLE.com") "2.2.2.2" "ub" 6).1
      = ⟨409, .jsonMsg false "This email is already registered"⟩ := by
  refine ⟨c2_normalization_idempotent_and_collision.1 " User@Example.COM ", ?_, ?_⟩
  · exact (c2_normalization_idempotent_and_collision.2 ⟨true, [], []⟩ "User@Example.com"
      "user@EXAMPLE.com" "1.1.1.1" "ua" "2.2.2.2" "ub" 5 6 rfl
      (Or.inl (by decide)) (by decide) (by intro d hd; simp at hd)).1
  · exact (c2_normalization_idempotent_and_collision.2 ⟨true, [], []⟩ "User@Example.com"
      "user@EXAMPLE.com" "1.1.1.1" "ua" "2.2.2.2" "ub" 5 6 rfl
      (Or.inl (by decide)) (by decide) (by intro d hd; simp at hd)).2.1
/-! ## Claim C3: submitting the same email twice -/

/-- C3: for every valid email `e` (valid in its normalized form, the form the
schema validates) and every reachable store containing no entry for the
normalized email, submitting `e` twice yields success (201, entry created)
then the 409 conflict response with no new entry. -/
theorem c3_waitlist_double_submission (db : DB) (e ip1 ua1 ip2 ua2 : String) (t1 t2 : Nat)
    (hconn : db.connected = true)
    (hvalid : emailOkStr (normalizeEmail e) = true)
    (hnot : ∀ d ∈ db.waitlist, d.email ≠ normalizeEmail e) :
    (postWaitlist db (some e) ip1 ua1 t1).1.status = 201 ∧
    (postWaitlist db (some e) ip1 ua1 t1).1.body.successField = some true ∧
    (postWaitlist db (some e) ip1 ua1 t1).2.waitlist
      = db.waitlist ++ [⟨normalizeEmail e, t1, "landing-page", ip1, ua1⟩] ∧
    (postWaitlist (postWaitlist db (some e) ip1 ua1 t1).2 (some e) ip2 ua2 t2).1.status = 409 ∧
    (postWaitlist (postWaitlist db (some e) ip1 ua1 t1).2 (some e) ip2 ua2 t2).1.body
      = .jsonMsg false "This email is already registered" ∧
    (postWaitlist (postWaitlist db (some e) ip1 ua1 t1).2 (some e) ip2 ua2 t2).2
      = (postWaitlist db (some e) ip1 ua1 t1).2 := by
  have hne : e ≠ "" := nonempty_of_norm_ok hvalid
  have h1 := postWaitlist_success db e ip1 ua1 t1 hconn hvalid hnot
  rw [h1]
  have h2 := postWaitlist_conflict
    {db with waitlist :=
      db.waitlist ++ [⟨normalizeEmail e, t1, "landing-page", ip1, ua1⟩]}
    e ip2 ua2 t2 hconn hne
    ⟨⟨normalizeEmail e, t1, "landing-page", ip1, ua1⟩, by simp, rfl⟩
  rw [h2]
  simp [Body.successField]

/-- Witness for C3 at a concrete input. -/
theorem c3_waitlist_double_submission_witness :
    (postWaitlist ⟨true, [], []⟩ (some "dev@hft.io") "9.9.9.9" "ua" 1).1.status = 201 ∧
    (postWaitlist (postWaitlist ⟨true, [], []⟩ (some "dev@hft.io") "9.9.9.9" "ua" 1).2
      (some "dev@hft.io") "9.9.9.9" "ua" 2).1.status = 409 := by
  have h := c3_waitlist_double_submission ⟨true, [], []⟩ "dev@hft.io" "9.9.9.9" "ua"
    "9.9.9.9" "ua" 1 2 rfl (by decide) (by intro d hd; simp at hd)
  exact ⟨h.1, h.2.2.2.1⟩
/-! ## Claim C1: thoughts message validation -/

/-- Trimming a string twice trims it once. -/
theorem trimStr_idem (s : String) : trimStr (trimStr s) = trimStr s := by
  show String.mk (trimList (trimList s.data)) = String.mk (trimList s.data)
  rw [trimList_idem]

theorem length_ge_ten_ne_empty {s : String} (h : 10 ≤ s.length) : s ≠ "" := by
  intro hs
  rw [hs] at h
  exact absurd h (by decide)

theorem trimStr_length_le (s : String) : (trimStr s).length ≤ s.length :=
  trimList_length_le s.data

/-- A save whose message trims to fewer than 10 characters throws, whatever
the connection state (unreachable store, failed `required`, or failed
`minlength`). -/
theorem thoughtsSave_fail_short (db : DB) (e' : Option String) (m : String) (now : Nat)
    (ip ua : String) (h : (trimStr m).length < 10) :
    thoughtsSave db e' (trimStr m) now ip ua = .error () := by
  unfold thoughtsSave
  rcases hc : db.connected
  · simp
  · rw [trimStr_idem]
    by_cases hm : trimStr m = ""
    · simp [hm]
    · simp [hm, h]

/-- A save with a trimmed message of length at least 10 and a valid (or
absent) email succeeds on a reachable store and appends the document. -/
theorem thoughtsSave_success (db : DB) (e' : Option String) (m : String) (now : Nat)
    (ip ua : String) (hconn : db.connected = true) (hlen : 10 ≤ (trimStr m).length)
    (hemail : match e'.map normalizeEmail with
              | none => True
              | some s => emailOkStr s = true) :
    thoughtsSave db e' (trimStr m) now ip ua =
      .ok ({db with thoughts := db.thoughts
          ++ [⟨e'.map normalizeEmail, trimStr m, now, "landing-page", ip, ua⟩]},
        ⟨e'.map normalizeEmail, trimStr m, now, "landing-page", ip, ua⟩) := by
  have hne : trimStr m ≠ "" := length_ge_ten_ne_empty hlen
  unfold thoughtsSave
  rw [trimStr_idem]
  rcases e' with _ | s
  · simp [hconn, hne, Nat.not_lt.mpr hlen]
  · have hemail2 : emailOkStr (normalizeEmail s) = true := hemail
    simp [hconn, hne, Nat.not_lt.mpr hlen, hemail2]

/-- The inline email guard does not fire (the email is absent, falsy, or its
normalized form is empty or passes the regex). -/
def emailGatePasses (emailField : Option String) : Prop :=
  match normEmailField emailField with
  | none => True
  | some ne => ne = "" ∨ emailOkStr ne = true

/-- The optional email also passes the schema-level match validator at save. -/
def emailSaveOk (emailField : Option String) : Prop :=
  match normEmailField emailField with
  | none => True
  | some ne => emailOkStr ne = true

theorem guard_false_of_passes {ef : Option String} (h : emailGatePasses ef) :
    emailGuardFires (normEmailField ef) = false := by
  unfold emailGatePasses at h
  unfold emailGuardFires
  rcases hn : normEmailField ef with _ | ne
  · rfl
  · rw [hn] at h
    rcases h with h | h
    · simp [h]
    · simp [h]

theorem emailGatePasses_of_saveOk {ef : Option String} (h : emailSaveOk ef) :
    emailGatePasses ef := by
  unfold emailSaveOk at h
  unfold emailGatePasses
  rcases hn : normEmailField ef with _ | ne
  · trivial
  · rw [hn] at h
    exact Or.inr h

theorem mapnorm_normEmailField (ef : Option String) :
    (normEmailField ef).map normalizeEmail = normEmailField ef := by
  rcases ef with _ | e
  · rfl
  · unfold normEmailField
    by_cases he : e = ""
    · simp [he]
    · simp [he, normalizeEmail_idem]

/-- C1 (amended): a thoughts submission yields the 400 validation response
when the message is absent, empty, or of raw length under 10, persisting
nothing; when the raw length is at least 10 but the trimmed length is under
10, the inline check (which measures the raw length) passes and the
schema-level save fails instead, so the handler answers with the generic
500 response, not 400, again persisting nothing; when the trimmed length is
at least 10 (and any supplied email is valid) the submission succeeds with
201 and the trimmed message is persisted. -/
theorem c1_thoughts_message_validation (db : DB) (emailField : Option String)
    (message ip ua : String) (now : Nat) :
    (postThoughts db emailField none ip ua now
        = (⟨400, .jsonMsg false "Message is required"⟩, db)) ∧
    (message = "" → postThoughts db emailField (some message) ip ua now
        = (⟨400, .jsonMsg false "Message is required"⟩, db)) ∧
    (message ≠ "" → message.length < 10 →
      postThoughts db emailField (some message) ip ua now
        = (⟨400, .jsonMsg false "Message must be at least 10 characters long"⟩, db)) ∧
    (10 ≤ message.length → (trimStr message).length < 10 →
      emailGatePasses emailField →
      postThoughts db emailField (some message) ip ua now
        = (⟨500, .jsonMsg false "Server error. Please try again."⟩, db)) ∧
    (db.connected = true → 10 ≤ (trimStr message).length →
      emailSaveOk emailField →
      (postThoughts db emailField (some message) ip ua now).1
          = ⟨201, .jsonMsg true "Successfully saved your thoughts"⟩ ∧
      (postThoughts db emailField (some message) ip ua now).2.thoughts
          = db.thoughts
            ++ [⟨normEmailField emailField, trimStr message, now, "landing-page", ip, ua⟩]) := by
  refine ⟨rfl, ?_, ?_, ?_, ?_⟩
  · intro h
    subst h
    rfl
  · intro hne hlt
    simp [postThoughts, hne, hlt]
  · intro hge hlt hgate
    have hne : message ≠ "" := length_ge_ten_ne_empty hge
    have hsave := thoughtsSave_fail_short db (normEmailField emailField) message now ip ua hlt
    simp [postThoughts, hne, Nat.not_lt.mpr hge, guard_false_of_passes hgate, hsave]
  · intro hconn hlen hsaveok
    have hge : 10 ≤ message.length := le_trans hlen (trimStr_length_le message)
    have hne : message ≠ "" := length_ge_ten_ne_empty hge
    have hemail : (match (normEmailField emailField).map normalizeEmail with
        | none => True
        | some s => emailOkStr s = true) := by
      rw [mapnorm_normEmailField]
      exact hsaveok
    have hsave := thoughtsSave_success db (normEmailField emailField) message now ip ua
      hconn hlen hemail
    rw [mapnorm_normEmailField] at hsave
    constructor
    · simp [postThoughts, hne, Nat.not_lt.mpr hge,
        guard_false_of_passes (emailGatePasses_of_saveOk hsaveok), hsave]
    · simp [postThoughts, hne, Nat.not_lt.mpr hge,
        guard_false_of_passes (emailGatePasses_of_saveOk hsaveok), hsave]

/-- Witness for C1 at concrete inputs: a 12-character message succeeds, and
a message of raw length 10 that trims to 2 characters is answered with 500. -/
theorem c1_thoughts_message_validation_witness :
    (postThoughts ⟨true, [], []⟩ none (some "ab        ") "ip" "ua" 0).1.status = 500 ∧
    (postThoughts ⟨true, [], []⟩ none (some "good message") "ip" "ua" 0).1.status = 201 := by
  constructor
  · have h := (c1_thoughts_message_validation ⟨true, [], []⟩ none "ab        " "ip" "ua"
      0).2.2.2.1 (by decide) (by decide) (by trivial)
    rw [h]
  · have h := ((c1_thoughts_message_validation ⟨true, [], []⟩ none "good message" "ip" "ua"
      0).2.2.2.2 rfl (by decide) (by trivial)).1
    rw [h]

/-- C1 counterexample: the message made of `"ab"` followed by eight spaces
has raw length 10 and trimmed length 2; the claim requires the 400
validation error, but the handler responds 500 (the raw-length inline check
passes and the schema `minlength` failure is caught by the generic catch).
Nothing is persisted either way. -/
theorem c1_raw_length_counterexample :
    (postThoughts ⟨true, [], []⟩ none (some "ab        ") "ip" "ua" 0).1.status = 500 ∧
    ¬ (postThoughts ⟨true, [], []⟩ none (some "ab        ") "ip" "ua" 0).1.status = 400 ∧
    (postThoughts ⟨true, [], []⟩ none (some "ab        ") "ip" "ua" 0).2 = ⟨true, [], []⟩ := by
  refine ⟨rfl, by decide, rfl⟩
/-! ## Claim C10: waitlist submissions with an invalid email -/

/-- C10 (amended): a waitlist submission whose non-empty email has an
invalid normalized (lowercased, trimmed) form — the form the schema
validates at save — and whose normalized form is not already stored is
answered with the generic 500 server-error response (not a 400 validation
error, since format checking happens only at schema-level save) and
persists nothing. -/
theorem c10_waitlist_invalid_email (db : DB) (email ip ua : String) (now : Nat)
    (hne : email ≠ "")
    (hinvalid : emailOkStr (normalizeEmail email) = false)
    (hnot : ∀ d ∈ db.waitlist, d.email ≠ normalizeEmail email) :
    postWaitlist db (some email) ip ua now
      = (⟨500, .jsonMsg false "Server error. Please try again."⟩, db) := by
  rcases hc : db.connected
  · simp [postWaitlist, waitlistFindOne, hc, hne, Bind.bind, Except.bind]
  · have hfind2 : db.waitlist.find? (fun d => d.email == normalizeEmail email) = none := by
      rw [List.find?_eq_none]
      intro d hd
      simpa using hnot d hd
    by_cases hemp : normalizeEmail email = ""
    · rw [hemp] at hfind2
      simp [postWaitlist, waitlistFindOne, waitlistSave, hc, hne, normalizeEmail_lowerStr,
        hfind2, hemp, Bind.bind, Except.bind, Pure.pure, Except.pure]
    · simp [postWaitlist, waitlistFindOne, waitlistSave, hc, hne, normalizeEmail_lowerStr,
        hfind2, hemp, hinvalid, Bind.bind, Except.bind, Pure.pure, Except.pure]

/-- Witness for C10 at a concrete input. -/
theorem c10_waitlist_invalid_email_witness :
    postWaitlist ⟨true, [], []⟩ (some "not-an-email") "ip" "ua" 0
      = (⟨500, .jsonMsg false "Server error. Please try again."⟩, ⟨true, [], []⟩) := by
  exact c10_waitlist_invalid_email ⟨true, [], []⟩ "not-an-email" "ip" "ua" 0
    (by decide) (by decide) (by intro d hd; simp at hd)

/-- C10 counterexample: the raw email `" a@b.co "` is non-empty, does not
match the email pattern (it contains whitespace), and is not stored, yet
the submission is answered 201 and an entry is persisted: the schema
setters trim the value to the valid `"a@b.co"` before the match validator
runs, so the claimed 500 never happens for this input. -/
theorem c10_raw_pattern_counterexample :
    emailOkStr " a@b.co " = false ∧
    (postWaitlist ⟨true, [], []⟩ (some " a@b.co ") "ip" "ua" 0).1.status = 201 ∧
    ¬ (postWaitlist ⟨true, [], []⟩ (some " a@b.co ") "ip" "ua" 0).1.status = 500 ∧
    (postWaitlist ⟨true, [], []⟩ (some " a@b.co ") "ip" "ua" 0).2.waitlist
      = [⟨"a@b.co", 0, "landing-page", "ip", "ua"⟩] := by
  refine ⟨by decide, rfl, by decide, rfl⟩

/-! ## Claim C4: the admin gate -/

/-- C4 (amended): for a nonempty configured admin key, every request to any
of the four admin routes whose secret header is absent, empty, or differs
from the key is answered 401 with the no-data Unauthorized body; access is
granted exactly when the header equals the configured key by string
equality.  (For an empty configured key an empty header is equal to the
key, so the counterexample forces the nonemptiness hypothesis.) -/
theorem c4_admin_gate_unauthorized (key : String) (apiKey : Option String) (db : DB)
    (dateFmt : Nat → String)
    (hkey : key ≠ "")
    (hmiss : apiKey = none ∨ apiKey = some "" ∨ apiKey ≠ some key) :
    getWaitlistAll db (some key) apiKey = (⟨401, .jsonMsg false "Unauthorized"⟩, db) ∧
    getThoughtsAll db (some key) apiKey = (⟨401, .jsonMsg false "Unauthorized"⟩, db) ∧
    getWaitlistExport db (some key) apiKey dateFmt
      = (⟨401, .jsonMsg false "Unauthorized"⟩, db) ∧
    getThoughtsExport db (some key) apiKey dateFmt
      = (⟨401, .jsonMsg false "Unauthorized"⟩, db) ∧
    (Body.jsonMsg false "Unauthorized").hasRecordData = false ∧
    (∀ a : Option String, adminPass (some key) a = true ↔ a = some key) := by
  have hne : apiKey ≠ some key := by
    rcases hmiss with h | h | h
    · rw [h]
      intro hcontra
      exact Option.noConfusion hcontra
    · rw [h]
      intro hcontra
      exact hkey (Option.some.inj hcontra).symm
    · exact h
  have hpass : adminPass (some key) apiKey = false := by
    unfold adminPass
    simpa using hne
  refine ⟨?_, ?_, ?_, ?_, rfl, ?_⟩
  · simp [getWaitlistAll, hpass]
  · simp [getThoughtsAll, hpass]
  · simp [getWaitlistExport, hpass]
  · simp [getThoughtsExport, hpass]
  · intro a
    unfold adminPass
    simp

/-- Witness for C4 at a concrete input. -/
theorem c4_admin_gate_unauthorized_witness :
    (getWaitlistAll ⟨true, [], []⟩ (some "secret") none).1.status = 401 ∧
    (getThoughtsAll ⟨true, [], []⟩ (some "secret") (some "Secret")).1.status = 401 := by
  constructor
  · have h := (c4_admin_gate_unauthorized "secret" none ⟨true, [], []⟩ (fun _ => "")
      (by decide) (Or.inl rfl)).1
    rw [h]
  · have h := (c4_admin_gate_unauthorized "secret" (some "Secret") ⟨true, [], []⟩ (fun _ => "")
      (by decide) (Or.inr (Or.inr (by decide)))).2.1
    rw [h]

/-- C4 counterexample: with the admin key configured as the empty string, an
empty secret header is granted access (200 with the data body), refuting
the claim that an empty header is always answered 401. -/
theorem c4_empty_key_counterexample :
    (getWaitlistAll ⟨true, [], []⟩ (some "") (some "")).1.status = 200 ∧
    ¬ (getWaitlistAll ⟨true, [], []⟩ (some "") (some "")).1.status = 401 ∧
    (getWaitlistAll ⟨true, [], []⟩ (some "") (some "")).1.body = .jsonListW true 0 [] := by
  refine ⟨rfl, by decide, rfl⟩
/-! ## Claim C5: unset admin key grants access to credential-less requests -/

/-- C5: when the configured admin key is unset (`ADMIN_API_KEY` undefined)
and the request omits the secret header, the strict comparison sees
undefined on both sides, so the gate passes and the admin routes return the
full collection contents without any credential. -/
theorem c5_unset_key_open_access (db : DB) (dateFmt : Nat → String)
    (hconn : db.connected = true) :
    adminPass none none = true ∧
    ((getWaitlistAll db none none).1.status = 200 ∧
      ∃ data, (getWaitlistAll db none none).1.body = .jsonListW true data.length data ∧
        data.Perm (db.waitlist.map projWaitlist)) ∧
    ((getThoughtsAll db none none).1.status = 200 ∧
      ∃ data, (getThoughtsAll db none none).1.body = .jsonListT true data.length data ∧
        data.Perm (db.thoughts.map projThought)) ∧
    ((getWaitlistExport db none none dateFmt).1.status = 200 ∧
      (getWaitlistExport db none none dateFmt).1.body = .csvBody ⟨waitlistCsvHeader
        ++ ((List.insertionSort tsDescW db.waitlist).map
            (fun d => waitlistCsvRow d (dateFmt d.timestamp))).flatten⟩ ∧
      (List.insertionSort tsDescW db.waitlist).Perm db.waitlist) ∧
    ((getThoughtsExport db none none dateFmt).1.status = 200 ∧
      (getThoughtsExport db none none dateFmt).1.body = .csvBody ⟨thoughtsCsvHeader
        ++ ((List.insertionSort tsDescT db.thoughts).map
            (fun d => thoughtCsvRow d (dateFmt d.timestamp))).flatten⟩ ∧
      (List.insertionSort tsDescT db.thoughts).Perm db.thoughts) := by
  refine ⟨rfl, ⟨?_, ?_⟩, ⟨?_, ?_⟩, ⟨?_, ?_, ?_⟩, ⟨?_, ?_, ?_⟩⟩
  · simp [getWaitlistAll, adminPass, waitlistFindSorted, hconn]
  · refine ⟨(List.insertionSort tsDescW db.waitlist).map projWaitlist, ?_, ?_⟩
    · simp [getWaitlistAll, adminPass, waitlistFindSorted, hconn]
    · exact (List.perm_insertionSort tsDescW db.waitlist).map projWaitlist
  · simp [getThoughtsAll, adminPass, thoughtsFindSorted, hconn]
  · refine ⟨(List.insertionSort tsDescT db.thoughts).map projThought, ?_, ?_⟩
    · simp [getThoughtsAll, adminPass, thoughtsFindSorted, hconn]
    · exact (List.perm_insertionSort tsDescT db.thoughts).map projThought
  · simp [getWaitlistExport, adminPass, waitlistFindSorted, hconn]
  · simp [getWaitlistExport, adminPass, waitlistFindSorted, hconn]
  · exact List.perm_insertionSort tsDescW db.waitlist
  · simp [getThoughtsExport, adminPass, thoughtsFindSorted, hconn]
  · simp [getThoughtsExport, adminPass, thoughtsFindSorted, hconn]
  · exact List.perm_insertionSort tsDescT db.thoughts

/-- Witness for C5 at a concrete input: one stored waitlist entry is served
to a request with no header when no key is configured. -/
theorem c5_unset_key_open_access_witness :
    (getWaitlistAll ⟨true, [⟨"a@b.co", 1, "landing-page", "ip", "ua"⟩], []⟩ none none).1.status
      = 200 ∧
    ∃ data, (getWaitlistAll ⟨true, [⟨"a@b.co", 1, "landing-page", "ip", "ua"⟩], []⟩
        none none).1.body = .jsonListW true data.length data ∧
      data.Perm (([⟨"a@b.co", 1, "landing-page", "ip", "ua"⟩] :
        List WaitlistDoc).map projWaitlist) := by
  exact ((c5_unset_key_open_access ⟨true, [⟨"a@b.co", 1, "landing-page", "ip", "ua"⟩], []⟩
    (fun _ => "") rfl).2.1 : _)
/-! ## Claim C7: admin listings and exports are sorted, complete, projected -/

/-- C7: every successful admin listing or export returns the full collection
ordered by creation time in non-increasing order; the listings are
projected exactly to email/timestamp/source (waitlist) and
email/message/timestamp/source (thoughts), the projections being the
`WaitlistProj` and `ThoughtProj` record types. -/
theorem c7_admin_listing_sorted_full_projection (db : DB) (adminKey apiKey : Option String)
    (dateFmt : Nat → String)
    (hconn : db.connected = true) (hauth : adminPass adminKey apiKey = true) :
    ((getWaitlistAll db adminKey apiKey).1 = ⟨200, .jsonListW true
        ((List.insertionSort tsDescW db.waitlist).map projWaitlist).length
        ((List.insertionSort tsDescW db.waitlist).map projWaitlist)⟩ ∧
      ((List.insertionSort tsDescW db.waitlist).map projWaitlist).Pairwise
        (fun a b => b.timestamp ≤ a.timestamp) ∧
      ((List.insertionSort tsDescW db.waitlist).map projWaitlist).Perm
        (db.waitlist.map projWaitlist)) ∧
    ((getThoughtsAll db adminKey apiKey).1 = ⟨200, .jsonListT true
        ((List.insertionSort tsDescT db.thoughts).map projThought).length
        ((List.insertionSort tsDescT db.thoughts).map projThought)⟩ ∧
      ((List.insertionSort tsDescT db.thoughts).map projThought).Pairwise
        (fun a b => b.timestamp ≤ a.timestamp) ∧
      ((List.insertionSort tsDescT db.thoughts).map projThought).Perm
        (db.thoughts.map projThought)) ∧
    ((getWaitlistExport db adminKey apiKey dateFmt).1 = ⟨200, .csvBody ⟨waitlistCsvHeader
        ++ ((List.insertionSort tsDescW db.waitlist).map
            (fun d => waitlistCsvRow d (dateFmt d.timestamp))).flatten⟩⟩ ∧
      (List.insertionSort tsDescW db.waitlist).Pairwise
        (fun a b => b.timestamp ≤ a.timestamp) ∧
      (List.insertionSort tsDescW db.waitlist).Perm db.waitlist) ∧
    ((getThoughtsExport db adminKey apiKey dateFmt).1 = ⟨200, .csvBody ⟨thoughtsCsvHeader
        ++ ((List.insertionSort tsDescT db.thoughts).map
            (fun d => thoughtCsvRow d (dateFmt d.timestamp))).flatten⟩⟩ ∧
      (List.insertionSort tsDescT db.thoughts).Pairwise
        (fun a b => b.timestamp ≤ a.timestamp) ∧
      (List.insertionSort tsDescT db.thoughts).Perm db.thoughts) := by
  refine ⟨⟨?_, ?_, ?_⟩, ⟨?_, ?_, ?_⟩, ⟨?_, ?_, ?_⟩, ⟨?_, ?_, ?_⟩⟩
  · simp [getWaitlistAll, hauth, waitlistFindSorted, hconn]
  · exact List.pairwise_map.mpr (List.sorted_insertionSort tsDescW db.waitlist)
  · exact (List.perm_insertionSort tsDescW db.waitlist).map projWaitlist
  · simp [getThoughtsAll, hauth, thoughtsFindSorted, hconn]
  · exact List.pairwise_map.mpr (List.sorted_insertionSort tsDescT db.thoughts)
  · exact (List.perm_insertionSort tsDescT db.thoughts).map projThought
  · simp [getWaitlistExport, hauth, waitlistFindSorted, hconn]
  · exact List.sorted_insertionSort tsDescW db.waitlist
  · exact List.perm_insertionSort tsDescW db.waitlist
  · simp [getThoughtsExport, hauth, thoughtsFindSorted, hconn]
  · exact List.sorted_insertionSort tsDescT db.thoughts
  · exact List.perm_insertionSort tsDescT db.thoughts

/-- Witness for C7 at a concrete input: two waitlist entries inserted
out of order are listed newest-first and projected. -/
theorem c7_admin_listing_sorted_full_projection_witness :
    (getWaitlistAll ⟨true, [⟨"o@l.de", 1, "landing-page", "i1", "u1"⟩,
        ⟨"n@w.fr", 5, "landing-page", "i2", "u2"⟩], []⟩ (some "k") (some "k")).1
      = ⟨200, .jsonListW true 2 [⟨"n@w.fr", 5, "landing-page"⟩, ⟨"o@l.de", 1, "landing-page"⟩]⟩ := by
  have h := (c7_admin_listing_sorted_full_projection
    ⟨true, [⟨"o@l.de", 1, "landing-page", "i1", "u1"⟩,
      ⟨"n@w.fr", 5, "landing-page", "i2", "u2"⟩], []⟩
    (some "k") (some "k") (fun _ => "") rfl rfl).1.1
  rw [h]
  rfl
/-! ## Claim C8: all storage failures are caught and converted -/

/-- C8: with the storage layer unreachable, every storage-dependent route —
the two count queries included — answers with the caught 500 response whose
JSON body is the no-success message shape, and the store is left untouched;
no handler propagates the failure (each is a total function into
`Response`).  Validation happens before storage, so the posts reach the
failing storage call only when their inline validation passes. -/
theorem c8_storage_failures_converted (db : DB) (adminKey apiKey : Option String)
    (dateFmt : Nat → String) (e m ip ua : String) (now : Nat)
    (hdis : db.connected = false) :
    (getWaitlistCount db = (⟨500, .jsonMsg false "Server error"⟩, db)) ∧
    (getThoughtsCount db = (⟨500, .jsonMsg false "Server error"⟩, db)) ∧
    (adminPass adminKey apiKey = true →
      getWaitlistAll db adminKey apiKey = (⟨500, .jsonMsg false "Server error"⟩, db) ∧
      getThoughtsAll db adminKey apiKey = (⟨500, .jsonMsg false "Server error"⟩, db) ∧
      getWaitlistExport db adminKey apiKey dateFmt
        = (⟨500, .jsonMsg false "Server error"⟩, db) ∧
      getThoughtsExport db adminKey apiKey dateFmt
        = (⟨500, .jsonMsg false "Server error"⟩, db)) ∧
    (e ≠ "" → postWaitlist db (some e) ip ua now
      = (⟨500, .jsonMsg false "Server error. Please try again."⟩, db)) ∧
    (10 ≤ m.length → postThoughts db none (some m) ip ua now
      = (⟨500, .jsonMsg false "Server error. Please try again."⟩, db)) := by
  refine ⟨?_, ?_, ?_, ?_, ?_⟩
  · simp [getWaitlistCount, waitlistCountDocs, hdis]
  · simp [getThoughtsCount, thoughtsCountDocs, hdis]
  · intro hauth
    refine ⟨?_, ?_, ?_, ?_⟩
    · simp [getWaitlistAll, hauth, waitlistFindSorted, hdis]
    · simp [getThoughtsAll, hauth, thoughtsFindSorted, hdis]
    · simp [getWaitlistExport, hauth, waitlistFindSorted, hdis]
    · simp [getThoughtsExport, hauth, thoughtsFindSorted, hdis]
  · intro hne
    simp [postWaitlist, waitlistFindOne, hdis, hne, Bind.bind, Except.bind]
  · intro hlen
    have hne : m ≠ "" := length_ge_ten_ne_empty hlen
    simp [postThoughts, hne, Nat.not_lt.mpr hlen, normEmailField, emailGuardFires,
      thoughtsSave, hdis]

/-- Witness for C8 at a concrete input. -/
theorem c8_storage_failures_converted_witness :
    getWaitlistCount ⟨false, [], []⟩ = (⟨500, .jsonMsg false "Server error"⟩, ⟨false, [], []⟩) ∧
    postWaitlist ⟨false, [], []⟩ (some "a@b.co") "ip" "ua" 0
      = (⟨500, .jsonMsg false "Server error. Please try again."⟩, ⟨false, [], []⟩) := by
  have h := c8_storage_failures_converted ⟨false, [], []⟩ none none (fun _ => "")
    "a@b.co" "a long enough message" "ip" "ua" 0 rfl
  exact ⟨h.1, h.2.2.2.1 (by decide)⟩

/-! ## Claim C9: bounded startup retry, then degrade rather than crash -/

/-- C9: the startup loop makes at most four connection attempts (the initial
attempt plus the default three retries), sleeps the fixed 5000 ms between
consecutive attempts, and when every attempt fails it ends in the
running-without-DB state (never an exit) after exactly four attempts and
three delays; in that degraded state every storage-dependent request is
answered with the caught 500 response while the health check still answers
200 without touching storage. -/
theorem c9_startup_retry_bounded :
    (∀ ok : Nat → Bool,
      (startupConnect ok).2.1 ≤ 4 ∧ ∀ d ∈ (startupConnect ok).2.2, d = 5000) ∧
    (∀ ok : Nat → Bool, (∀ i, ok i = false) →
      startupConnect ok = (.runningWithoutDB, 4, [5000, 5000, 5000])) ∧
    (∀ db : DB, db.connected = false →
      getWaitlistCount db = (⟨500, .jsonMsg false "Server error"⟩, db) ∧
      getThoughtsCount db = (⟨500, .jsonMsg false "Server error"⟩, db) ∧
      healthCheck db = (⟨200, .healthBody "ok" "Server is running"⟩, db)) := by
  have hgen : ∀ (ok : Nat → Bool) (retries i : Nat),
      (connectDB ok retries i).2.1 ≤ retries + 1 ∧
      ∀ d ∈ (connectDB ok retries i).2.2, d = 5000 := by
    intro ok retries
    induction retries with
    | zero =>
      intro i
      unfold connectDB
      rcases h : ok i
      · simp [h]
      · simp [h]
    | succ r ih =>
      intro i
      unfold connectDB
      rcases h : ok i
      · have := ih (i + 1)
        simp only [h, Bool.false_eq_true, if_false, ite_false]
        constructor
        · simpa using Nat.add_le_add_right this.1 1
        · intro d hd
          rcases List.mem_cons.mp hd with hd | hd
          · exact hd
          · exact this.2 d hd
      · simp [h]
  refine ⟨fun ok => hgen ok 3 0, ?_, ?_⟩
  · intro ok hfail
    show connectDB ok 3 0 = _
    simp [connectDB, hfail]
  · intro db hdis
    refine ⟨?_, ?_, rfl⟩
    · simp [getWaitlistCount, waitlistCountDocs, hdis]
    · simp [getThoughtsCount, thoughtsCountDocs, hdis]

/-- Witness for C9 at a concrete input. -/
theorem c9_startup_retry_bounded_witness :
    startupConnect (fun _ => false) = (.runningWithoutDB, 4, [5000, 5000, 5000]) ∧
    healthCheck ⟨false, [], []⟩
      = (⟨200, .healthBody "ok" "Server is running"⟩, ⟨false, [], []⟩) := by
  exact ⟨c9_startup_retry_bounded.2.1 (fun _ => false) (fun _ => rfl),
    (c9_startup_retry_bounded.2.2 ⟨false, [], []⟩ rfl).2.2⟩
/-! ## Claim C6: CSV quoting round-trips through a standard parser -/

/-- The body of a standard CSV quoted field, after the opening quote: a
doubled quote decodes to a literal quote character, a single quote closes
the field.  Returns the decoded field and the input remaining after the
closing quote. -/
def parseQuotedBody : List Char → Option (List Char × List Char)
  | [] => none
  | c :: rest =>
    if c = '"' then
      match rest with
      | c2 :: rest2 =>
        if c2 = '"' then (parseQuotedBody rest2).map (fun p => ('"' :: p.1, p.2))
        else some ([], rest)
      | [] => some ([], [])
    else (parseQuotedBody rest).map (fun p => (c :: p.1, p.2))

/-- A standard CSV quoted-field parser: an opening quote, then the body. -/
def parseQuoted : List Char → Option (List Char × List Char)
  | c :: rest => if c = '"' then parseQuotedBody rest else none
  | [] => none

/-- A standard CSV record parser for one line of quoted fields separated by
commas and terminated by a newline (or the end of input), fuelled by the
input length (every field consumes at least two characters, so the length
is always enough fuel). -/
def parseRecordFuel : Nat → List Char → Option (List (List Char))
  | 0, _ => none
  | fuel + 1, l =>
    match parseQuoted l with
    | none => none
    | some (f, rest) =>
      match rest with
      | [] => some [f]
      | ['\n'] => some [f]
      | ',' :: rest2 =>
        match parseRecordFuel fuel rest2 with
        | none => none
        | some fs => some (f :: fs)
      | _ => none

/-- Parse one CSV record. -/
def parseRecord (l : List Char) : Option (List (List Char)) :=
  parseRecordFuel l.length l

theorem escQuotes_no_quote {s : List Char} (h : ¬ '"' ∈ s) : escQuotes s = s := by
  induction s with
  | nil => rfl
  | cons c cs ih =>
    have hc : c ≠ '"' := by
      intro hcq
      exact h (hcq ▸ List.mem_cons_self c cs)
    have hcs : ¬ '"' ∈ cs := fun hin => h (List.mem_cons_of_mem c hin)
    simp [escQuotes, hc, ih hcs]

theorem parseQuotedBody_esc (m rest : List Char) (hrest : rest.head? ≠ some '"') :
    parseQuotedBody (escQuotes m ++ '"' :: rest) = some (m, rest) := by
  induction m with
  | nil =>
    show parseQuotedBody ('"' :: rest) = some ([], rest)
    rw [parseQuotedBody.eq_def]
    dsimp only
    rw [if_pos rfl]
    cases rest with
    | nil => rfl
    | cons c2 rest2 =>
      have hc2 : c2 ≠ '"' := by
        intro hq
        exact hrest (by rw [hq]; rfl)
      dsimp only
      rw [if_neg hc2]
  | cons c cs ih =>
    by_cases hc : c = '"'
    · subst hc
      show parseQuotedBody ((if ('"' : Char) = '"' then '"' :: '"' :: escQuotes cs
        else '"' :: escQuotes cs) ++ '"' :: rest) = _
      rw [if_pos rfl]
      show parseQuotedBody ('"' :: '"' :: (escQuotes cs ++ '"' :: rest)) = _
      rw [parseQuotedBody.eq_def]
      dsimp only
      rw [if_pos rfl, if_pos rfl, ih]
      rfl
    · show parseQuotedBody ((if c = '"' then '"' :: '"' :: escQuotes cs
        else c :: escQuotes cs) ++ '"' :: rest) = _
      rw [if_neg hc]
      show parseQuotedBody (c :: (escQuotes cs ++ '"' :: rest)) = _
      rw [parseQuotedBody.eq_def]
      dsimp only
      rw [if_neg hc, ih]
      rfl

/-- Parsing an escaped quoted field recovers the original string. -/
theorem parseQuoted_quoteEsc (s : String) (rest : List Char) (hrest : rest.head? ≠ some '"') :
    parseQuoted (quoteEsc s ++ rest) = some (s.data, rest) := by
  have hshape : quoteEsc s ++ rest = '"' :: (escQuotes s.data ++ '"' :: rest) := by
    show ('"' :: escQuotes s.data ++ ['"']) ++ rest = _
    simp [List.cons_append, List.append_assoc]
  rw [hshape]
  show (if ('"' : Char) = '"' then parseQuotedBody (escQuotes s.data ++ '"' :: rest)
    else none) = _
  rw [if_pos rfl, parseQuotedBody_esc s.data rest hrest]

/-- Parsing an unescaped quoted field whose content has no quote character
recovers the original string. -/
theorem parseQuoted_quoteRaw (s : String) (rest : List Char) (hrest : rest.head? ≠ some '"')
    (hnq : ¬ '"' ∈ s.data) :
    parseQuoted (quoteRaw s ++ rest) = some (s.data, rest) := by
  have h1 : quoteRaw s = quoteEsc s := by
    show '"' :: s.data ++ ['"'] = '"' :: escQuotes s.data ++ ['"']
    rw [escQuotes_no_quote hnq]
  rw [h1]
  exact parseQuoted_quoteEsc s rest hrest

theorem parseRecordFuel_cons (fuel : Nat) (l f rest2 : List Char)
    (h : parseQuoted l = some (f, ',' :: rest2)) :
    parseRecordFuel (fuel + 1) l
      = match parseRecordFuel fuel rest2 with
        | none => none
        | some fs => some (f :: fs) := by
  simp [parseRecordFuel, h]

theorem parseRecordFuel_last (fuel : Nat) (l f : List Char)
    (h : parseQuoted l = some (f, ['\n'])) :
    parseRecordFuel (fuel + 1) l = some [f] := by
  simp [parseRecordFuel, h]

theorem comma_head_ne_quote (r : List Char) : (',' :: r).head? ≠ some '"' := by
  intro h
  simp at h

/-- Parsing one row of the thoughts CSV export with a standard CSV parser
recovers all five stored fields, provided the four fields the source does
not escape contain no quote character. -/
theorem parseRecord_thoughtCsvRow (d : ThoughtDoc) (dateStr : String)
    (hemail : ¬ '"' ∈ (d.email.getD "").data)
    (hdate : ¬ '"' ∈ dateStr.data)
    (hsrc : ¬ '"' ∈ d.source.data)
    (hip : ¬ '"' ∈ d.ipAddress.data) :
    parseRecord (thoughtCsvRow d dateStr)
      = some [(d.email.getD "").data, d.message.data, dateStr.data, d.source.data,
          d.ipAddress.data] := by
  have hrow : thoughtCsvRow d dateStr
      = quoteRaw (d.email.getD "") ++ (',' :: (quoteEsc d.message ++ (',' :: (quoteRaw dateStr
          ++ (',' :: (quoteRaw d.source ++ (',' :: (quoteRaw d.ipAddress ++ ['\n'])))))))) := by
    simp [thoughtCsvRow, List.append_assoc]
  have h1 := parseQuoted_quoteRaw (d.email.getD "")
    (',' :: (quoteEsc d.message ++ (',' :: (quoteRaw dateStr ++ (',' :: (quoteRaw d.source
      ++ (',' :: (quoteRaw d.ipAddress ++ ['\n']))))))))
    (comma_head_ne_quote _) hemail
  have h2 := parseQuoted_quoteEsc d.message
    (',' :: (quoteRaw dateStr ++ (',' :: (quoteRaw d.source
      ++ (',' :: (quoteRaw d.ipAddress ++ ['\n']))))))
    (comma_head_ne_quote _)
  have h3 := parseQuoted_quoteRaw dateStr
    (',' :: (quoteRaw d.source ++ (',' :: (quoteRaw d.ipAddress ++ ['\n']))))
    (comma_head_ne_quote _) hdate
  have h4 := parseQuoted_quoteRaw d.source
    (',' :: (quoteRaw d.ipAddress ++ ['\n']))
    (comma_head_ne_quote _) hsrc
  have h5 : parseQuoted (quoteRaw d.ipAddress ++ ['\n'])
      = some (d.ipAddress.data, ['\n']) := by
    apply parseQuoted_quoteRaw d.ipAddress ['\n'] ?_ hip
    intro h
    simp at h
  have hfive : 5 ≤ (thoughtCsvRow d dateStr).length := by
    rw [hrow]
    simp [quoteRaw, quoteEsc, List.length_append]
    omega
  obtain ⟨k, hk⟩ : ∃ k, (thoughtCsvRow d dateStr).length = k + 5 :=
    ⟨(thoughtCsvRow d dateStr).length - 5, by omega⟩
  have p5 : parseRecordFuel (k + 1) (quoteRaw d.ipAddress ++ ['\n'])
      = some [d.ipAddress.data] := parseRecordFuel_last k _ _ h5
  have p4 : parseRecordFuel (k + 2)
      (quoteRaw d.source ++ (',' :: (quoteRaw d.ipAddress ++ ['\n'])))
      = some [d.source.data, d.ipAddress.data] := by
    have heq : k + 2 = (k + 1) + 1 := by omega
    rw [heq, parseRecordFuel_cons _ _ _ _ h4, p5]
  have p3 : parseRecordFuel (k + 3)
      (quoteRaw dateStr ++ (',' :: (quoteRaw d.source ++ (',' :: (quoteRaw d.ipAddress
        ++ ['\n'])))))
      = some [dateStr.data, d.source.data, d.ipAddress.data] := by
    have heq : k + 3 = (k + 2) + 1 := by omega
    rw [heq, parseRecordFuel_cons _ _ _ _ h3, p4]
  have p2 : parseRecordFuel (k + 4)
      (quoteEsc d.message ++ (',' :: (quoteRaw dateStr ++ (',' :: (quoteRaw d.source
        ++ (',' :: (quoteRaw d.ipAddress ++ ['\n'])))))))
      = some [d.message.data, dateStr.data, d.source.data, d.ipAddress.data] := by
    have heq : k + 4 = (k + 3) + 1 := by omega
    rw [heq, parseRecordFuel_cons _ _ _ _ h2, p3]
  have p1 : parseRecordFuel (k + 5) (thoughtCsvRow d dateStr)
      = some [(d.email.getD "").data, d.message.data, dateStr.data, d.source.data,
          d.ipAddress.data] := by
    have heq : k + 5 = (k + 4) + 1 := by omega
    rw [hrow, heq, parseRecordFuel_cons _ _ _ _ h1, p2]
  show parseRecordFuel (thoughtCsvRow d dateStr).length (thoughtCsvRow d dateStr) = _
  rw [hk, p1]

/-- C6 (amended): for every stored thought whose message contains a comma,
a quote character and a newline, the thoughts CSV export escapes the
message field by wrapping it in quotes and doubling internal quotes, so
that — provided the four fields the source leaves unescaped (email, date,
source, IP address) contain no quote character — parsing the produced CSV
row with a standard CSV parser yields exactly the stored field values; in
particular the second parsed field is exactly the stored message
(round-trip).  The no-quote hypotheses are necessary: the server's own
email pattern admits quote characters, and for a stored email containing
one the unescaped email field breaks the row, so the produced row does not
parse at all (see the counterexample below). -/
theorem c6_thoughts_csv_roundtrip (d : ThoughtDoc) (dateStr : String)
    (hcomma : ',' ∈ d.message.data) (hquote : '"' ∈ d.message.data)
    (hnl : '\n' ∈ d.message.data)
    (hemail : ¬ '"' ∈ (d.email.getD "").data)
    (hdate : ¬ '"' ∈ dateStr.data)
    (hsrc : ¬ '"' ∈ d.source.data)
    (hip : ¬ '"' ∈ d.ipAddress.data) :
    parseRecord (thoughtCsvRow d dateStr)
      = some [(d.email.getD "").data, d.message.data, dateStr.data, d.source.data,
          d.ipAddress.data] ∧
    ∃ fields, parseRecord (thoughtCsvRow d dateStr) = some fields ∧
      fields[1]? = some d.message.data := by
  have h := parseRecord_thoughtCsvRow d dateStr hemail hdate hsrc hip
  exact ⟨h, [(d.email.getD "").data, d.message.data, dateStr.data, d.source.data,
    d.ipAddress.data], h, rfl⟩

/-- Witness for C6 at a concrete input whose message contains a comma, a
quote and a newline. -/
theorem c6_thoughts_csv_roundtrip_witness :
    parseRecord (thoughtCsvRow
        ⟨some "a@b.co", "Hi, \"you\"\nBye", 7, "landing-page", "1.2.3.4", "ua"⟩
        "1/2/2024, 10:00:00 AM")
      = some ["a@b.co".data, "Hi, \"you\"\nBye".data, "1/2/2024, 10:00:00 AM".data,
          "landing-page".data, "1.2.3.4".data] := by
  exact (c6_thoughts_csv_roundtrip
    ⟨some "a@b.co", "Hi, \"you\"\nBye", 7, "landing-page", "1.2.3.4", "ua"⟩
    "1/2/2024, 10:00:00 AM" (by decide) (by decide) (by decide)
    (by decide) (by decide) (by decide) (by decide)).1

/-- C6 counterexample: the email `"a"@b.co` passes the server's own email
pattern (quote characters are admitted by the class `[^\s@]`), so a stored
thought may carry it; its message below contains a comma, a quote and a
newline, putting the entry squarely in the claim's scope.  The export
quotes the email field without escaping its quote characters, so the
produced row does not parse at all with a standard CSV parser — in
particular it does not yield the stored message, refuting the claim as
originally quantified. -/
theorem c6_quoted_email_counterexample :
    emailOkStr "\"a\"@b.co" = true ∧
    (',' ∈ "Hi, \"you\"\nBye".data ∧ '"' ∈ "Hi, \"you\"\nBye".data ∧
      '\n' ∈ "Hi, \"you\"\nBye".data) ∧
    parseRecord (thoughtCsvRow
        ⟨some "\"a\"@b.co", "Hi, \"you\"\nBye", 7, "landing-page", "1.2.3.4", "ua"⟩
        "1/2/2024, 10:00:00 AM")
      = none ∧
    ¬ ∃ fields, parseRecord (thoughtCsvRow
        ⟨some "\"a\"@b.co", "Hi, \"you\"\nBye", 7, "landing-page", "1.2.3.4", "ua"⟩
        "1/2/2024, 10:00:00 AM") = some fields ∧
      fields[1]? = some "Hi, \"you\"\nBye".data := by
  refine ⟨by decide, ⟨by decide, by decide, by decide⟩, by decide, ?_⟩
  rintro ⟨fields, hf, -⟩
  rw [show parseRecord (thoughtCsvRow
      ⟨some "\"a\"@b.co", "Hi, \"you\"\nBye", 7, "landing-page", "1.2.3.4", "ua"⟩
      "1/2/2024, 10:00:00 AM") = none from by decide] at hf
  exact Option.noConfusion hf
end HftInfra
